import Mathlib

/- Shallow embedding of the nodeplayer Player core (src/player.js).

   JavaScript values that flow through hook dispatch are modelled by the
   inductive type Value together with JS truthiness; plugin descriptors by
   Plugin (a nested hooks bundle plus the set of truthy top-level
   properties); later sections model the Player state machine itself.
   Machine-level concerns (the event loop, wall-clock time) are made
   explicit: asynchronous callback delivery is modelled as deterministic
   sequential delivery after the registering call has returned, matching
   the single-threaded event-loop semantics of the source, and the current
   time is a field of the state. -/

/-- JavaScript runtime values, as far as the Player core inspects them. -/
inductive Value where
  | vnull : Value
  | vundef : Value
  | vbool : Bool → Value
  | vnum : ℚ → Value
  | vstr : String → Value
deriving DecidableEq

/-- JavaScript truthiness of a Value. -/
def Value.truthy : Value → Bool
  | .vnull => false
  | .vundef => false
  | .vbool b => b
  | .vnum q => decide (q ≠ 0)
  | .vstr s => decide (s ≠ "")

/-- A hook function of a plugin: receives the argument list, returns a value
(a truthy return is an error or veto signal). -/
def HookFun : Type := List Value → Value

/-- A plugin descriptor. The source accesses hook functions through a nested
bundle (plugin.hooks), while numHooks tests a top-level property of the
plugin object; props lists the names of the truthy top-level properties. -/
structure Plugin where
  name : String := ""
  hooks : List (String × HookFun) := []
  props : List String := []

/-- Lookup of the nested hook bundle of a plugin, as callHooks does. -/
def Plugin.lookupHook (p : Plugin) (hook : String) : Option HookFun :=
  (p.hooks.find? (fun q => q.1 == hook)).map (fun q => q.2)

/-- Worker for callHooks, carrying the running err variable of the source
(initially null, overwritten by every hook invocation). It also returns the
list of values produced by the hook invocations actually performed, in
order, as an observation of which hooks fired.
Source: src/player.js lines 75-93. -/
def callHooksAux (hook : String) (argv : List Value) :
    List Plugin → Value → List Value × Value
  | [], err => ([], err)
  | p :: ps, err =>
    match p.lookupHook hook with
    | none => callHooksAux hook argv ps err
    | some f =>
      let e := f argv
      if e.truthy then ([e], e)
      else
        let r := callHooksAux hook argv ps e
        (e :: r.1, r.2)

/-- callHooks from src/player.js lines 75-93: iterate the registered plugins
in order, invoke the hook of each plugin exposing it, stop at the first
truthy return and return it (null if nothing else). -/
def callHooks (plugins : List Plugin) (hook : String) (argv : List Value) : Value :=
  (callHooksAux hook argv plugins .vnull).2

/-- The sequence of values returned by the hook invocations callHooks
actually performs, in order. -/
def callHooksFired (plugins : List Plugin) (hook : String) (argv : List Value) :
    List Value :=
  (callHooksAux hook argv plugins .vnull).1

/-- numHooks from src/player.js lines 96-106: counts the plugins whose
top-level property named hook is truthy (note: the top level of the plugin
object, not the nested hooks bundle that callHooks consults). -/
def numHooks (plugins : List Plugin) (hook : String) : Nat :=
  match plugins with
  | [] => 0
  | p :: ps => (if p.props.contains hook then 1 else 0) + numHooks ps hook

/- Specification-side characterisations used to state the hook-dispatch
claims (never used inside the definitions above). -/

/-- The values the hooks of all plugins exposing a hook would return, in
plugin registration order. -/
def hookResults (plugins : List Plugin) (hook : String) (argv : List Value) :
    List Value :=
  (plugins.filterMap (fun p => p.lookupHook hook)).map (fun f => f argv)

/-- Number of plugins exposing a nested hook of the given name, which is
exactly the number of hook functions callHooks would consider. -/
def exposingCount (plugins : List Plugin) (hook : String) : Nat :=
  (plugins.filterMap (fun p => p.lookupHook hook)).length

/-- First truthy element of a list of values, if any. -/
def firstTruthy : List Value → Option Value
  | [] => none
  | v :: vs => if v.truthy then some v else firstTruthy vs

/-- Prefix of a list of values up to and including its first truthy
element (the whole list if none is truthy). -/
def takeToFirstTruthy : List Value → List Value
  | [] => []
  | v :: vs => if v.truthy then [v] else v :: takeToFirstTruthy vs

lemma hookResults_cons_none (p : Plugin) (ps : List Plugin) (hook : String)
    (argv : List Value) (h : p.lookupHook hook = none) :
    hookResults (p :: ps) hook argv = hookResults ps hook argv := by
  simp [hookResults, List.filterMap_cons, h]

lemma hookResults_cons_some (p : Plugin) (ps : List Plugin) (hook : String)
    (argv : List Value) (f : HookFun) (h : p.lookupHook hook = some f) :
    hookResults (p :: ps) hook argv = f argv :: hookResults ps hook argv := by
  simp [hookResults, List.filterMap_cons, h]

lemma callHooksAux_spec (hook : String) (argv : List Value) :
    ∀ (ps : List Plugin) (err : Value), err.truthy = false →
      callHooksAux hook argv ps err =
        (takeToFirstTruthy (hookResults ps hook argv),
         match firstTruthy (hookResults ps hook argv) with
         | some v => v
         | none => (hookResults ps hook argv).getLastD err)
  | [], err, _ => by
      simp [callHooksAux, hookResults, takeToFirstTruthy, firstTruthy,
        List.getLastD]
  | p :: ps, err, herr => by
      cases hf : p.lookupHook hook with
      | none =>
          rw [callHooksAux, hf]
          rw [hookResults_cons_none p ps hook argv hf]
          exact callHooksAux_spec hook argv ps err herr
      | some f =>
          rw [callHooksAux, hf]
          rw [hookResults_cons_some p ps hook argv f hf]
          cases ht : (f argv).truthy with
          | true =>
              simp only [ht, if_true, takeToFirstTruthy, firstTruthy]
          | false =>
              simp only [ht, if_false, takeToFirstTruthy, firstTruthy,
                Bool.false_eq_true]
              rw [callHooksAux_spec hook argv ps (f argv) ht]
              simp only [List.getLastD_cons]

lemma firstTruthy_none_falsy :
    ∀ (vs : List Value), firstTruthy vs = none → ∀ v ∈ vs, v.truthy = false
  | [], _, v, hv => by cases hv
  | w :: ws, h, v, hv => by
      rw [firstTruthy] at h
      by_cases hw : w.truthy = true
      · simp [hw] at h
      · simp only [Bool.not_eq_true] at hw
        simp only [hw, if_neg] at h
        rcases List.mem_cons.mp hv with h1 | h2
        · subst h1; exact hw
        · exact firstTruthy_none_falsy ws (by simpa using h) v h2

lemma getLastD_mem_or_default (d : Value) :
    ∀ (vs : List Value), vs.getLastD d = d ∨ vs.getLastD d ∈ vs
  | [] => Or.inl rfl
  | v :: vs => by
      rw [List.getLastD_cons]
      rcases getLastD_mem_or_default v vs with h | h
      · exact Or.inr (by rw [h]; exact List.mem_cons_self v vs)
      · exact Or.inr (List.mem_cons_of_mem v h)

/-- C1. callHooks invokes the hooks of exactly the plugins exposing the hook,
in registration order, stopping at the first truthy return: the sequence of
performed invocations is the prefix of the exposed-hook results up to and
including the first truthy one; the returned value is that first truthy
value when one exists; and when none exists (in particular when no hook
fired) the returned value is falsy, i.e. a null or empty signal. -/
theorem callHooks_dispatch (plugins : List Plugin) (hook : String)
    (argv : List Value) :
    callHooksFired plugins hook argv =
      takeToFirstTruthy (hookResults plugins hook argv)
    ∧ (∀ v, firstTruthy (hookResults plugins hook argv) = some v →
        callHooks plugins hook argv = v)
    ∧ (firstTruthy (hookResults plugins hook argv) = none →
        (callHooks plugins hook argv).truthy = false) := by
  have h := callHooksAux_spec hook argv plugins Value.vnull rfl
  refine ⟨?_, ?_, ?_⟩
  · unfold callHooksFired
    rw [h]
  · intro v hv
    unfold callHooks
    rw [h, hv]
  · intro hnone
    unfold callHooks
    rw [h, hnone]
    rcases getLastD_mem_or_default Value.vnull (hookResults plugins hook argv)
      with hd | hm
    · simp only [hd]; rfl
    · exact firstTruthy_none_falsy _ hnone _ hm

/- C2: numHooks consults the top level of the plugin object while callHooks
consults the nested hooks bundle; a plugin exposing a hook only through the
bundle is invoked by callHooks yet not counted by numHooks. -/

/-- A plugin exposing the hook h only through the nested hooks bundle
(no truthy top-level property named h). -/
def nestedOnlyPlugin : Plugin :=
  { name := "nestedOnly", hooks := [("h", fun _ => Value.vnull)], props := [] }

/-- A plugin exposing the hook h consistently at both levels. -/
def consistentPlugin : Plugin :=
  { name := "consistent", hooks := [("h", fun _ => Value.vnull)], props := ["h"] }

/-- C2, counterexample: for a plugin exposing the hook h only through the
nested hooks bundle, numHooks counts zero plugins although callHooks invokes
exactly one hook function for h, so numHooks does not count exactly the
plugins whose hook callHooks would invoke. -/
theorem numHooks_mismatch_counterexample :
    ¬ (numHooks [nestedOnlyPlugin] "h" =
        (callHooksFired [nestedOnlyPlugin] "h" []).length) := by
  decide

/-- C2, amended: numHooks counts the plugins with a truthy top-level
property of the given name; whenever every registered plugin exposes its
top-level capability exactly when its nested hooks bundle contains the
hook, this count equals the number of plugins whose hook function callHooks
consults for that name. -/
theorem numHooks_counts_consistent (plugins : List Plugin) (hook : String)
    (h : ∀ p ∈ plugins, p.props.contains hook = (p.lookupHook hook).isSome) :
    numHooks plugins hook = exposingCount plugins hook := by
  induction plugins with
  | nil => rfl
  | cons p ps ih =>
      have hp := h p (List.mem_cons_self p ps)
      have hps : ∀ q ∈ ps, q.props.contains hook = (q.lookupHook hook).isSome :=
        fun q hq => h q (List.mem_cons_of_mem p hq)
      rw [numHooks, ih hps]
      unfold exposingCount
      cases hf : p.lookupHook hook with
      | none =>
          rw [hf] at hp
          simp only [Option.isSome_none] at hp
          have hnp : hook ∉ p.props := by simp at hp; exact hp
          simp [List.filterMap_cons, hf, hnp]
      | some f =>
          rw [hf] at hp
          simp only [Option.isSome_some] at hp
          have hyp : hook ∈ p.props := by simp at hp; exact hp
          simp [List.filterMap_cons, hf, hyp]
          omega

/-- Witness for the amended C2 theorem, at a plugin list whose single
plugin exposes the hook consistently at both levels. -/
theorem numHooks_counts_consistent_witness :
    numHooks [consistentPlugin] "h" = exposingCount [consistentPlugin] "h" :=
  numHooks_counts_consistent [consistentPlugin] "h" (by
    intro p hp
    rw [List.mem_singleton] at hp
    subst hp
    rfl)

/- Player state model.  Songs and the Queue are collaborators of the core
(their classes are not part of the Player source); their interface is
modelled from the spec where noted.  The nowPlaying reference into the
queue is represented by the uuid of the referenced song; the claims only
traverse states where this reference is consistent with the queue. -/

/-- The playback record of a song: wall-clock start and offset. -/
structure Playback where
  startTime : Int := 0
  startPos : Int := 0
deriving DecidableEq

/-- One invocation of a fetch progress handler: (error, chunk, isComplete).
A present err is a truthy error signal; chunk is the number of bytes
flushed (0 for a falsy chunk argument). -/
structure FetchEvent where
  err : Option String := none
  chunk : Nat := 0
  done : Bool := false
deriving DecidableEq

/-- Modelled from the spec: the Song collaborator. Identity uuid and
songId, owning backend, preparation status isPrepared, the optional
cancelPrepare capability, buffered fetch data in the backend's
songsPreparing registry (hasSongData, with inFlight the registry
membership), the sequence of progress events its fetch capability will
deliver once started, the playback record, and the watchdog armed flag
that setPrepareTimeout stores on the song. -/
structure SongP where
  uuid : String := ""
  songId : String := ""
  backendName : String := ""
  prepared : Bool := false
  inFlight : Bool := false
  hasCancelPrepare : Bool := false
  hasSongData : Bool := false
  fetchEvents : List FetchEvent := []
  playback : Playback := {}
  prepareTimeout : Bool := false
deriving DecidableEq

/-- Modelled from the spec: the Queue collaborator, an ordered sequence of
songs, plus the playbackStart flag the Player reads on it. -/
structure QueueP where
  songs : List SongP := []
  playbackStart : Bool := false
deriving DecidableEq

/-- The outcome a backend's asynchronous search capability reports:
success with a list of song identifiers, or an error message. -/
inductive SearchReport where
  | ok : List String → SearchReport
  | err : String → SearchReport
deriving DecidableEq

/-- A backend descriptor as consumed by the aggregator: its name, whether
it exposes the optional getPlaylists capability and the results that
capability delivers, and the outcome its search capability reports (an
error message or a list of song identifiers). -/
structure Backend where
  name : String := ""
  hasGetPlaylists : Bool := false
  playlistsResults : Value := Value.vnull
  searchReport : SearchReport := SearchReport.ok []
deriving DecidableEq

/-- Observable events of a Player run: hook dispatches, entries into
startPlayback and prepareSongs, and actual starts of a backend fetch. -/
inductive TraceEv where
  | hook : String → List Value → TraceEv
  | startPlaybackCall : TraceEv
  | prepareSongsCall : TraceEv
  | fetchStart : String → TraceEv
deriving DecidableEq

/-- A thrown JavaScript error: a TypeError from dereferencing
null/undefined, or an Error thrown by the Player. -/
inductive JsErr where
  | typeError : String → JsErr
  | jserror : String → JsErr
deriving DecidableEq

/-- The Player state (src/player.js constructor fields), extended by the
model clock now and the observation trace. -/
structure PState where
  queue : QueueP := {}
  nowPlaying : Option String := none
  play : Bool := false
  repeatOn : Bool := false
  volume : ℚ := 1
  plugins : List Plugin := []
  backends : List Backend := []
  songEndTimeout : Bool := false
  now : Int := 0
  trace : List TraceEv := []

/-- The options object accepted by the Player constructor; absent fields
are none. -/
structure POptions where
  queue : Option QueueP := none
  nowPlaying : Option String := none
  play : Option Bool := none
  repeatOn : Option Bool := none
  volume : Option ℚ := none
  plugins : Option (List Plugin) := none
  backends : Option (List Backend) := none

/-- The Player constructor, src/player.js lines 10-29. Each field is the
JS or-default of the option: a truthy option value is kept, otherwise the
default applies; in particular a provided volume of 0 is falsy and is
replaced by the default 1, and any other provided volume is stored without
clamping. -/
def mkPlayer (o : POptions) (now : Int) : PState :=
  { queue := o.queue.getD {}
    nowPlaying := o.nowPlaying
    play := o.play.getD false
    repeatOn := o.repeatOn.getD false
    volume := match o.volume with
      | some v => if v = 0 then 1 else v
      | none => 1
    plugins := o.plugins.getD []
    backends := o.backends.getD []
    songEndTimeout := false
    now := now
    trace := [] }

/-- Modelled from the spec: Queue.findSong(uuid). -/
def QueueP.findSong (q : QueueP) (uuid : String) : Option SongP :=
  q.songs.find? (fun s => s.uuid == uuid)

/-- Modelled from the spec: Queue.findSongIndex(uuid), -1 when absent. -/
def QueueP.findSongIndex (q : QueueP) (uuid : String) : Int :=
  match q.songs.findIdx? (fun s => s.uuid == uuid) with
  | some i => (i : Int)
  | none => -1

/-- JS array indexing with a possibly negative index. -/
def listAtInt (l : List SongP) (i : Int) : Option SongP :=
  if i < 0 then none else l[i.toNat]?

/-- Modelled from the spec: Queue.uuidAtIndex(index), undefined when out of
range. -/
def QueueP.uuidAtIndex (q : QueueP) (i : Int) : Option String :=
  (listAtInt q.songs i).map (fun s => s.uuid)

/-- Modelled from the spec: Queue.getLength(). -/
def QueueP.getLength (q : QueueP) : Nat :=
  q.songs.length

/-- Mutation of the song object referenced by a uuid (the queue holds the
reference). -/
def PState.updateSong (st : PState) (uuid : String) (f : SongP → SongP) : PState :=
  { st with queue := { st.queue with
      songs := st.queue.songs.map (fun s => if s.uuid == uuid then f s else s) } }

/-- getNowPlaying, src/player.js lines 112-114 (resolving the uuid
reference into the queue). -/
def PState.getNowPlaying (st : PState) : Option SongP :=
  match st.nowPlaying with
  | none => none
  | some u => st.queue.findSong u

/-- Hook dispatch from inside the Player: invokes callHooks on the current
plugins and records the dispatch in the trace. -/
def PState.callHooksP (st : PState) (hook : String) (args : List Value) :
    PState × Value :=
  ({ st with trace := st.trace ++ [TraceEv.hook hook args] },
   callHooks st.plugins hook args)

/-- setPrepareTimeout, src/player.js lines 210-227: cancel any pending
watchdog handle for the song and arm a fresh one (stored on the song). -/
def setPrepareTimeout (st : PState) (uuid : String) : PState :=
  st.updateSong uuid (fun s => { s with prepareTimeout := true })

/-- clearPrepareTimeout, src/player.js lines 229-233. -/
def clearPrepareTimeout (st : PState) (uuid : String) : PState :=
  st.updateSong uuid (fun s => { s with prepareTimeout := false })

/-- prepareError, src/player.js lines 235-238. -/
def prepareError (st : PState) (uuid : String) (err : String) : PState :=
  (st.callHooksP "onSongPrepareError" [Value.vstr uuid, Value.vstr err]).1

/-- Modelled from the spec: Song.playbackStarted(position) records the
wall-clock start and offset in the song's playback record; the queue's
playbackStart flag marks that playback has started. -/
def playbackStarted (st : PState) (uuid : String) (pos : Int) : PState :=
  let st1 := st.updateSong uuid (fun s =>
    { s with playback := { startTime := st.now, startPos := pos } })
  { st1 with queue := { st1.queue with playbackStart := true } }

/-- stopPlayback, src/player.js lines 121-135: cancel the song-end timer,
clear play, then compute the elapsed position from the nowPlaying playback
record; the null check on nowPlaying comes only after that computation, so
a null nowPlaying faults there with a TypeError. -/
def stopPlayback (st : PState) (pause : Bool) : PState × Option JsErr :=
  let st1 : PState := { st with songEndTimeout := false, play := false }
  match st1.getNowPlaying with
  | none => (st1, some (JsErr.typeError "cannot read playback of null"))
  | some np =>
      let pos := np.playback.startPos + (st1.now - np.playback.startTime)
      (st1.updateSong np.uuid (fun s =>
        { s with playback := { startTime := 0, startPos := if pause then pos else 0 } }),
       none)

/-- The completion callback startPlayback passes to Song.prepare
(src/player.js lines 155-164): a truthy error is thrown; otherwise the
now-playing song records playbackStarted at the given position (or its
stored startPos when the position is 0, i.e. falsy) and play is set. -/
def spCallback (st : PState) (position : Int) (e : FetchEvent) :
    PState × Option JsErr :=
  match e.err with
  | some msg =>
      (st, some (JsErr.jserror ("error while preparing now playing: " ++ msg)))
  | none =>
      match st.getNowPlaying with
      | none => (st, some (JsErr.typeError "cannot read playbackStarted of null"))
      | some np =>
          let pos := if position = 0 then np.playback.startPos else position
          let st1 := playbackStarted st np.uuid pos
          ({ st1 with play := true }, none)

/-- Sequential delivery of fetch events to startPlayback's completion
callback; a thrown error stops the run. -/
def deliverSP (position : Int) : PState → List FetchEvent → PState × Option JsErr
  | st, [] => (st, none)
  | st, e :: es =>
      match spCallback st position e with
      | (st1, none) => deliverSP position st1 es
      | (st1, some x) => (st1, some x)

/-- Modelled from the spec: Song.prepare as invoked by startPlayback on the
now-playing song. An already prepared song completes immediately with a
success signal; a fetch already in flight delivers no new events to this
handler; otherwise the backend fetch starts (recorded in the trace, with
the song entering the in-flight registry) and its progress events reach
the handler after the registering call returns. -/
def songPrepareSP (st : PState) (position : Int) : PState × Option JsErr :=
  match st.getNowPlaying with
  | none => (st, some (JsErr.typeError "cannot read prepare of null"))
  | some np =>
      if np.prepared then
        spCallback st position { err := none, chunk := 0, done := true }
      else if np.inFlight then
        (st, none)
      else
        let st1 : PState := { st with trace := st.trace ++ [TraceEv.fetchStart np.uuid] }
        let st2 := st1.updateSong np.uuid (fun s =>
          { s with inFlight := true, hasSongData := true })
        deliverSP position st2 np.fetchEvents

/-- startPlayback, src/player.js lines 142-165: adopt the first queued song
when nothing is now playing, fail when the queue is empty, otherwise drive
the now-playing song's preparation and record the start on completion. -/
def startPlayback (st : PState) (position : Int) : PState × Option JsErr :=
  let st1 : PState := { st with trace := st.trace ++ [TraceEv.startPlaybackCall] }
  let st2 := if st1.nowPlaying.isNone
             then { st1 with nowPlaying := (st1.queue.songs.head?).map (fun s => s.uuid) }
             else st1
  if st2.nowPlaying.isNone then
    (st2, some (JsErr.jserror "queue is empty! not starting playback."))
  else
    songPrepareSP st2 position

/-- setVolume, src/player.js lines 440-444: clamp to the unit interval,
store, and fire onVolumeChange with the clamped value and the actor. -/
def setVolume (st : PState) (newVol : ℚ) (userID : Value) : PState :=
  let v := min 1 (max 0 newVol)
  let st1 : PState := { st with volume := v }
  (st1.callHooksP "onVolumeChange" [Value.vnum v, userID]).1

/-- The tail of prepareProgCallback after the playback-start check,
src/player.js lines 250-271: notify onPrepareProgress; on completion
notify onSongPrepared, drop the cancellation capability, release the
buffered data from the backend's in-flight registry and clear the
watchdog, otherwise re-arm the watchdog. -/
def prepareProgFinish (st1 : PState) (uuid : String) (bytesWritten : Nat)
    (done : Bool) : PState × Option JsErr :=
  let st2 := (st1.callHooksP "onPrepareProgress"
    [Value.vstr uuid, Value.vnum (bytesWritten : ℚ), Value.vbool done]).1
  if done then
    let st3 := (st2.callHooksP "onSongPrepared" [Value.vstr uuid]).1
    let st4 := st3.updateSong uuid (fun s =>
      { s with hasCancelPrepare := false, hasSongData := false, inFlight := false })
    (clearPrepareTimeout st4 uuid, none)
  else
    (setPrepareTimeout st2 uuid, none)

/-- prepareProgCallback, src/player.js lines 240-272: on flushed data,
start playback when the prepared song is the now-playing song, play is set
and playback has not started, then run the progress tail. -/
def prepareProgCallback (st : PState) (uuid : String) (bytesWritten : Nat)
    (done : Bool) : PState × Option JsErr :=
  let cond := st.play &&
      (match st.getNowPlaying with
       | some np => np.uuid == uuid
       | none => false) &&
      !st.queue.playbackStart && (bytesWritten != 0)
  match (if cond then startPlayback st 0 else (st, none)) with
  | (st1, some x) => (st1, some x)
  | (st1, none) => prepareProgFinish st1 uuid bytesWritten done

/-- The progress handler prepareSong passes to Song.prepare, src/player.js
lines 314-327, for a single progress event: a truthy fetch error makes it
invoke the series callback with that error and return (no cleanup); a
nonzero chunk is routed through prepareProgCallback; completion clears the
watchdog and invokes the series callback with no argument.  Returns the
state, a thrown error if any, and the callback invocations performed. -/
def prepHandler (uuid : String) (st : PState) (e : FetchEvent) :
    PState × Option JsErr × List (Option Value) :=
  match e.err with
  | some msg => (st, none, [some (Value.vstr msg)])
  | none =>
    match (if e.chunk != 0 then prepareProgCallback st uuid e.chunk e.done
           else (st, none)) with
    | (st1, some x) => (st1, some x, [])
    | (st1, none) =>
      if e.done then (clearPrepareTimeout st1 uuid, none, [none])
      else (st1, none, [])

/-- Sequential delivery of fetch events to prepareSong's progress handler;
a thrown error stops the run; callback invocations are collected in
order. -/
def deliverPrep (uuid : String) : PState → List FetchEvent →
    PState × Option JsErr × List (Option Value)
  | st, [] => (st, none, [])
  | st, e :: es =>
      match prepHandler uuid st e with
      | (st1, some x, ds) => (st1, some x, ds)
      | (st1, none, ds) =>
          let r := deliverPrep uuid st1 es
          (r.1, r.2.1, ds ++ r.2.2)

/-- prepareSong, src/player.js lines 293-331: a missing song throws; an
already prepared song possibly starts playback (same condition as the
progress path) and completes at once; otherwise Song.prepare registers the
progress handler (starting the backend fetch unless one is already in
flight, the song entering the in-flight registry), the watchdog is armed,
and the fetch progress events then reach the handler. -/
def prepareSong (st : PState) (uuid? : Option String) :
    PState × Option JsErr × List (Option Value) :=
  match uuid?.bind (fun u => st.queue.findSong u) with
  | none => (st, some (JsErr.jserror "prepareSong() without song"), [])
  | some s =>
    if s.prepared then
      let cond := st.play &&
          (match st.getNowPlaying with
           | some np => np.uuid == s.uuid
           | none => false) &&
          !st.queue.playbackStart
      match (if cond then startPlayback st 0 else (st, none)) with
      | (st1, some x) => (st1, some x, [])
      | (st1, none) => (st1, none, [none])
    else
      let startFetch := !s.inFlight
      let st1 := if startFetch then
          ({ st with trace := st.trace ++ [TraceEv.fetchStart s.uuid] } :
            PState).updateSong s.uuid (fun t =>
              { t with inFlight := true, hasSongData := true })
        else st
      let st2 := setPrepareTimeout st1 s.uuid
      if startFetch then deliverPrep s.uuid st2 s.fetchEvents
      else (st2, none, [])

/-- Truthiness of an argument passed to an async.series step callback (no
argument is falsy). -/
def doneTruthy : Option Value → Bool
  | none => false
  | some v => v.truthy

/-- prepareSongs, src/player.js lines 336-368: an async.series of two
steps.  Step one prepares the now-playing song, or the first queued song
when nothing is playing, and bails out when the queue is empty; step two
runs only if step one's callback was invoked with a falsy value, and
prepares the song after the current one (the source passes the song object
where findSongIndex expects a uuid; the model resolves that lookup through
the song's uuid). This is step two of the series. -/
def prepareSongsTask2 (st1 : PState) (cur : SongP) : PState × Option JsErr :=
  match listAtInt st1.queue.songs (st1.queue.findSongIndex cur.uuid + 1) with
  | none => (st1, none)
  | some nxt =>
      match prepareSong st1 (some nxt.uuid) with
      | (st2, some x, _) => (st2, some x)
      | (st2, none, _) => (st2, none)

/-- The series body of prepareSongs once the current song is known: step
one prepares it; step two runs only if step one's callback was invoked
with a falsy value. -/
def prepareSongsWithCur (st0 : PState) (cur : SongP) : PState × Option JsErr :=
  match prepareSong st0 (some cur.uuid) with
  | (st1, some x, _) => (st1, some x)
  | (st1, none, ds) =>
    match ds.head? with
    | none => (st1, none)
    | some a =>
      if doneTruthy a then (st1, none)
      else prepareSongsTask2 st1 cur

def prepareSongs (st : PState) : PState × Option JsErr :=
  let st0 : PState := { st with trace := st.trace ++ [TraceEv.prepareSongsCall] }
  match (match st0.getNowPlaying with
         | some c => some c
         | none => st0.queue.songs.head?) with
  | none => (st0, none)
  | some cur => prepareSongsWithCur st0 cur

/-- changeSong, src/player.js lines 172-185: cancel the song-end timer,
look the uuid up in the queue and make it now playing; when absent, stop
playback (with nowPlaying already null); then start playback. -/
def changeSong (st : PState) (uuid? : Option String) : PState × Option JsErr :=
  let st0 : PState := { st with songEndTimeout := false }
  let st1 : PState := { st0 with
    nowPlaying := uuid?.bind (fun u => (st0.queue.findSong u).map (fun s => s.uuid)) }
  match (if st1.nowPlaying.isNone then stopPlayback st1 false else (st1, none)) with
  | (st2, some x) => (st2, some x)
  | (st2, none) => startPlayback st2 0

/-- songEnd, src/player.js lines 187-207: locate the now-playing song's
queue index (a null now-playing song faults when its uuid is read), fire
onSongEnd, advance to the next queued song, or wrap to the first song when
at the end of the queue with repeat on; always trigger look-ahead
preparation afterwards. -/
def songEnd (st : PState) : PState × Option JsErr :=
  let np? := st.getNowPlaying
  let npIndex : Int :=
    match np? with
    | some np => st.queue.findSongIndex np.uuid
    | none => -1
  match np? with
  | none => (st, some (JsErr.typeError "cannot read uuid of null"))
  | some np =>
    let st1 := (st.callHooksP "onSongEnd" [Value.vstr np.uuid]).1
    let r :=
      match listAtInt st1.queue.songs (npIndex + 1) with
      | some nxt => changeSong st1 (some nxt.uuid)
      | none =>
        if st1.repeatOn then changeSong st1 (st1.queue.uuidAtIndex 0)
        else (st1, none)
    match r with
    | (st2, some x) => (st2, some x)
    | (st2, none) => prepareSongs st2

/-- The object merge used by the loading stages (the underscore library's
extend): keys of the first map keep their position and take the second
map's value when it has the key; new keys of the second map are appended. -/
def extendBy {α : Type} (name : α → String) (xs ys : List α) : List α :=
  xs.map (fun x => (ys.find? (fun y => name y == name x)).getD x)
    ++ ys.filter (fun y => !xs.any (fun x => name x == name y))

/-- Stage one of init, src/player.js lines 41-46: builtin plugins are
loaded, their map replaces the plugins map, the stage hook fires. -/
def initStage1 (st : PState) (builtinPlugins : List Plugin) : PState :=
  (({ st with plugins := builtinPlugins } : PState).callHooksP
    "onBuiltinPluginsInitialized" []).1

/-- Stage two of init, src/player.js lines 47-52: configured external
plugins are loaded and merged over the plugins map, the stage hook fires. -/
def initStage2 (st : PState) (extPlugins : List Plugin) : PState :=
  (({ st with plugins := extendBy Plugin.name st.plugins extPlugins } : PState).callHooksP
    "onPluginsInitialized" []).1

/-- Stage three of init, src/player.js lines 53-58: builtin backends are
loaded, their map replaces the backends map, the stage hook fires. -/
def initStage3 (st : PState) (builtinBackends : List Backend) : PState :=
  (({ st with backends := builtinBackends } : PState).callHooksP
    "onBuiltinBackendsInitialized" []).1

/-- Stage four of init, src/player.js lines 59-64: configured external
backends are loaded and merged over the backends map, the stage hook
fires. -/
def initStage4 (st : PState) (extBackends : List Backend) : PState :=
  (({ st with backends := extendBy Backend.name st.backends extBackends } : PState).callHooksP
    "onBackendsInitialized" []).1

/-- init, src/player.js lines 34-70: the four loading stages run strictly
in series (each loader's results are delivered to its stage callback), and
the final series callback fires onReady.  The loader collaborators are
passed in as the maps they deliver. -/
def Player.init (st : PState) (builtinPlugins extPlugins : List Plugin)
    (builtinBackends extBackends : List Backend) : PState :=
  ((initStage4 (initStage3 (initStage2 (initStage1 st builtinPlugins) extPlugins)
      builtinBackends) extBackends).callHooksP "onReady" []).1

/- Search / playlist aggregator.  Each backend's completion arrives as an
asynchronous event after the fan-out loop has returned; the model therefore
takes the completion order as an explicit argument.  A backend lacking the
getPlaylists capability completes immediately, inside the fan-out loop. -/

/-- The join state shared by the completion handlers of searchBackends:
the completion counter, the accumulated results and the number of times
the final callback has been invoked. -/
structure SearchJoin where
  resultCnt : Nat := 0
  allResults : List (String × List String) := []
  fired : Nat := 0
deriving DecidableEq

/-- The join state shared by the completion handlers of getPlaylists. -/
structure PlJoin where
  resultCnt : Nat := 0
  allResults : List (String × Value) := []
  fired : Nat := 0
deriving DecidableEq

/-- One backend completion of searchBackends, src/player.js lines 405-435:
on success the counter advances, each returned song is kept unless the
preAddSearchResult hook vetoes it, and the final callback fires when the
counter has reached the backend count; on error only the counter advances
and the same completion check runs. -/
def searchJoinStep (plugins : List Plugin) (total : Nat) (js : SearchJoin)
    (b : Backend) : SearchJoin :=
  match b.searchReport with
  | .ok songs =>
      let cnt := js.resultCnt + 1
      let kept := songs.filter (fun sid =>
        !(callHooks plugins "preAddSearchResult" [Value.vstr sid]).truthy)
      { resultCnt := cnt,
        allResults := js.allResults ++ [(b.name, kept)],
        fired := if total ≤ cnt then js.fired + 1 else js.fired }
  | .err _ =>
      let cnt := js.resultCnt + 1
      { js with
        resultCnt := cnt
        fired := if total ≤ cnt then js.fired + 1 else js.fired }

/-- searchBackends, src/player.js lines 400-437: the query goes out to
every registered backend; the completions then arrive in the given order
and run the join step. -/
def searchBackendsRun (st : PState) (order : List Backend) : SearchJoin :=
  order.foldl (searchJoinStep st.plugins st.backends.length) {}

/-- One backend completion of getPlaylists, src/player.js lines 386-395. -/
def plStep (total : Nat) (js : PlJoin) (b : Backend) : PlJoin :=
  let cnt := js.resultCnt + 1
  { resultCnt := cnt,
    allResults := js.allResults ++ [(b.name, b.playlistsResults)],
    fired := if total ≤ cnt then js.fired + 1 else js.fired }

/-- The immediate completion getPlaylists performs for a backend lacking
the capability, src/player.js lines 376-384: the counter advances with an
empty contribution and the same completion check runs. -/
def plMissingStep (total : Nat) (js : PlJoin) : PlJoin :=
  let cnt := js.resultCnt + 1
  { js with
    resultCnt := cnt
    fired := if total ≤ cnt then js.fired + 1 else js.fired }

/-- The fan-out loop of getPlaylists, src/player.js lines 375-396: each
backend lacking getPlaylists completes immediately; each backend exposing
it has its request issued (collected as pending, completing later). -/
def getPlaylistsIssue (total : Nat) : PlJoin × List Backend → List Backend →
    PlJoin × List Backend
  | acc, [] => acc
  | (js, pending), b :: bs =>
      if b.hasGetPlaylists then getPlaylistsIssue total (js, pending ++ [b]) bs
      else getPlaylistsIssue total (plMissingStep total js, pending) bs

/-- getPlaylists, src/player.js lines 370-397: the fan-out loop runs, then
the pending completions arrive in the given order and run the join step. -/
def getPlaylistsRun (st : PState) (order : List Backend) : PlJoin :=
  let total := st.backends.length
  (order.foldl (plStep total) (getPlaylistsIssue total ({}, []) st.backends).1)

/- Volume control (C5). -/

/-- C5, counterexample: the constructor does not clamp the provided
volume: constructing the player with a volume option of 2 stores volume 2,
outside the unit interval, so construction does not preserve the claimed
invariant. -/
theorem construction_volume_counterexample :
    ¬ ((mkPlayer { volume := some 2 } 0).volume ≤ 1) := by
  norm_num [mkPlayer]

/-- C5, amended: setVolume always stores the clamp of the requested value
into the unit interval and fires onVolumeChange with the clamped value and
the acting user, so every state setVolume produces satisfies the volume
invariant (in particular requests of -1, 2 and 2/5 store 0, 1 and 2/5);
the constructor, however, stores a provided volume unclamped, so the
invariant holds after construction only when the provided volume lies in
the unit interval (an absent or falsy volume option defaults to 1, which
satisfies it). -/
theorem setVolume_clamps (st : PState) (v : ℚ) (userID : Value) :
    (setVolume st v userID).volume = min 1 (max 0 v)
    ∧ 0 ≤ (setVolume st v userID).volume
    ∧ (setVolume st v userID).volume ≤ 1
    ∧ (setVolume st v userID).trace = st.trace ++
        [TraceEv.hook "onVolumeChange" [Value.vnum (min 1 (max 0 v)), userID]]
    ∧ (setVolume st (-1) userID).volume = 0
    ∧ (setVolume st 2 userID).volume = 1
    ∧ (setVolume st (2/5) userID).volume = 2/5
    ∧ (mkPlayer { volume := none } 0).volume = 1 := by
  refine ⟨rfl, ?_, ?_, rfl, ?_, ?_, ?_, rfl⟩
  · exact le_min (by norm_num) (le_max_left 0 v)
  · exact min_le_left 1 (max 0 v)
  · show min 1 (max 0 (-1 : ℚ)) = 0
    norm_num
  · show min 1 (max 0 (2 : ℚ)) = 1
    norm_num
  · show min 1 (max 0 (2/5 : ℚ)) = 2/5
    norm_num

/- Playback state machine: empty queue (C4) and missing-song change
(C10). -/

/-- C4. startPlayback on a state with no now-playing song and an empty
queue fails with the queue-empty error and leaves the whole player state
unchanged (in particular nowPlaying, play, the queue and every playback
record in it); only the observation trace records the attempted call. -/
theorem startPlayback_emptyQueue (st : PState) (hnp : st.nowPlaying = none)
    (hq : st.queue.songs = []) :
    startPlayback st 0 =
      ({ st with trace := st.trace ++ [TraceEv.startPlaybackCall] },
       some (JsErr.jserror "queue is empty! not starting playback.")) := by
  simp [startPlayback, hnp, hq]

/-- Witness for C4 at the default-constructed player with an empty
queue. -/
theorem startPlayback_emptyQueue_witness :
    startPlayback {} 0 =
      ({ ({} : PState) with trace := [TraceEv.startPlaybackCall] },
       some (JsErr.jserror "queue is empty! not starting playback.")) :=
  startPlayback_emptyQueue {} rfl rfl

/-- C10. When the requested uuid is not in the queue, changeSong clears
nowPlaying and calls stopPlayback with nowPlaying null; stopPlayback
computes the elapsed position by reading the playback record of nowPlaying
before its null check, so that call faults with a TypeError on the null
nowPlaying (after having already cleared the song-end timer and the play
flag), and the fault propagates out of changeSong. -/
theorem changeSong_missing_null_deref (st : PState) (uuid : String)
    (h : st.queue.findSong uuid = none) :
    (changeSong st (some uuid)).2 = some (JsErr.typeError "cannot read playback of null")
    ∧ (changeSong st (some uuid)).1.nowPlaying = none
    ∧ (changeSong st (some uuid)).1.play = false
    ∧ ∀ s2 : PState, s2.nowPlaying = none →
        stopPlayback s2 false =
          ({ s2 with songEndTimeout := false, play := false },
           some (JsErr.typeError "cannot read playback of null")) := by
  have hstop : ∀ s2 : PState, s2.nowPlaying = none →
      stopPlayback s2 false =
        ({ s2 with songEndTimeout := false, play := false },
         some (JsErr.typeError "cannot read playback of null")) := by
    intro s2 h2
    simp [stopPlayback, PState.getNowPlaying, h2]
  refine ⟨?_, ?_, ?_, hstop⟩
  · simp [changeSong, h, stopPlayback, PState.getNowPlaying]
  · simp [changeSong, h, stopPlayback, PState.getNowPlaying]
  · simp [changeSong, h, stopPlayback, PState.getNowPlaying]

/-- Witness for C10 at the default-constructed player and an absent
uuid. -/
theorem changeSong_missing_null_deref_witness :
    (changeSong {} (some "missing")).2 =
        some (JsErr.typeError "cannot read playback of null")
    ∧ (changeSong {} (some "missing")).1.nowPlaying = none
    ∧ (changeSong {} (some "missing")).1.play = false
    ∧ ∀ s2 : PState, s2.nowPlaying = none →
        stopPlayback s2 false =
          ({ s2 with songEndTimeout := false, play := false },
           some (JsErr.typeError "cannot read playback of null")) :=
  changeSong_missing_null_deref {} "missing" rfl

lemma findSong_uuid_eq (q : QueueP) (u : String) (s : SongP)
    (h : q.findSong u = some s) : s.uuid = u := by
  unfold QueueP.findSong at h
  have h2 := List.find?_some h
  simpa using h2

/-- C7. prepareSong on an already prepared song invokes its completion
callback exactly once, immediately and with no error, without starting the
backend fetch; and it enters startPlayback exactly when the song is the
now-playing song, play is set and playback has not started yet (the trace
gains the startPlayback entry in exactly that case, and never a
fetch-start entry). -/
theorem prepareSong_already_prepared (st : PState) (uuid : String) (s : SongP)
    (hs : st.queue.findSong uuid = some s) (hp : s.prepared = true) :
    (prepareSong st (some uuid)).2.1 = none
    ∧ (prepareSong st (some uuid)).2.2 = [none]
    ∧ (prepareSong st (some uuid)).1.trace = st.trace ++
        (if st.play = true ∧ st.nowPlaying = some uuid ∧ st.queue.playbackStart = false
         then [TraceEv.startPlaybackCall] else []) := by
  have hu : s.uuid = uuid := findSong_uuid_eq st.queue uuid s hs
  rcases hnp : st.nowPlaying with _ | u'
  · simp [prepareSong, hs, hp, hnp, PState.getNowPlaying]
  · by_cases huu : u' = uuid
    · subst huu
      cases hplay : st.play with
      | false =>
          simp [prepareSong, hs, hp, hnp, hplay, PState.getNowPlaying]
      | true =>
          cases hpb : st.queue.playbackStart with
          | true =>
              simp [prepareSong, hs, hp, hnp, hplay, hpb, PState.getNowPlaying]
          | false =>
              simp [prepareSong, hs, hp, hnp, hplay, hpb, hu,
                PState.getNowPlaying, startPlayback, songPrepareSP, spCallback,
                playbackStarted, PState.updateSong]
    · have hne : (some u' = some uuid) = False := by
        simp [huu]
      cases hf2 : st.queue.findSong u' with
      | none =>
          simp [prepareSong, hs, hp, hnp, hf2, hne, PState.getNowPlaying]
      | some np =>
          have hnu : np.uuid = u' := findSong_uuid_eq st.queue u' np hf2
          have hx : (np.uuid == s.uuid) = false := by
            rw [hnu, hu]
            simp [huu]
          simp [prepareSong, hs, hp, hnp, hf2, hne, hx, PState.getNowPlaying]

/-- The concrete state used to witness C7: one prepared song, now playing,
play set, playback not yet started. -/
def c7State : PState :=
  { queue := { songs := [{ uuid := "a", prepared := true }] },
    nowPlaying := some "a", play := true }

/-- Witness for C7 at a prepared now-playing song with play set. -/
theorem prepareSong_already_prepared_witness :
    (prepareSong c7State (some "a")).2.1 = none
    ∧ (prepareSong c7State (some "a")).2.2 = [none]
    ∧ (prepareSong c7State (some "a")).1.trace = c7State.trace ++
        (if c7State.play = true ∧ c7State.nowPlaying = some "a"
            ∧ c7State.queue.playbackStart = false
         then [TraceEv.startPlaybackCall] else []) :=
  prepareSong_already_prepared c7State "a" { uuid := "a", prepared := true } rfl rfl

lemma find?_map_update (u : String) (f : SongP → SongP)
    (hf : ∀ t, (f t).uuid = t.uuid) :
    ∀ (l : List SongP) (s : SongP),
      l.find? (fun t => t.uuid == u) = some s →
      (l.map (fun t => if t.uuid == u then f t else t)).find?
        (fun t => t.uuid == u) = some (f s)
  | [], s, h => by simp at h
  | t :: l, s, h => by
      cases ht : (t.uuid == u) with
      | true =>
          simp only [List.find?_cons, ht] at h
          injection h with h
          subst h
          have hft : ((f t).uuid == u) = true := by rw [hf t]; exact ht
          simp only [List.map_cons, ht, if_true, List.find?_cons, hft]
      | false =>
          simp only [List.find?_cons, ht] at h
          simp only [List.map_cons, ht, if_false, Bool.false_eq_true,
            List.find?_cons]
          exact find?_map_update u f hf l s h

lemma findSong_updateSong (st : PState) (u : String) (f : SongP → SongP)
    (hf : ∀ t, (f t).uuid = t.uuid) (s : SongP)
    (hs : st.queue.findSong u = some s) :
    (st.updateSong u f).queue.findSong u = some (f s) := by
  unfold PState.updateSong QueueP.findSong
  unfold QueueP.findSong at hs
  exact find?_map_update u f hf st.queue.songs s hs

/-- C3. When the fetch capability reports an error during preparation, the
pipeline only invokes the series callback with that error and performs
none of the claimed cleanup: the song keeps its cancelPrepare capability,
the buffered fetch data stays in the in-flight registry, the watchdog
armed by prepareSong stays armed, and no onSongPrepareError hook fires
(the trace gains only the fetch start).  The cleanup steps of the claim
live in prepareErrCallback, which no code path invokes. -/
theorem prepareSong_error_no_cleanup (st : PState) (uuid : String) (s : SongP)
    (m : String) (hs : st.queue.findSong uuid = some s)
    (hnp : s.prepared = false) (hif : s.inFlight = false)
    (hev : s.fetchEvents = [{ err := some m, chunk := 0, done := false }]) :
    (prepareSong st (some uuid)).2.2 = [some (Value.vstr m)]
    ∧ (prepareSong st (some uuid)).2.1 = none
    ∧ (prepareSong st (some uuid)).1.trace = st.trace ++ [TraceEv.fetchStart uuid]
    ∧ (prepareSong st (some uuid)).1.queue.findSong uuid =
        some { s with inFlight := true, hasSongData := true, prepareTimeout := true } := by
  have hu : s.uuid = uuid := findSong_uuid_eq st.queue uuid s hs
  have key : prepareSong st (some uuid) =
      (setPrepareTimeout
        (({ st with trace := st.trace ++ [TraceEv.fetchStart s.uuid] } : PState).updateSong
          s.uuid (fun t => { t with inFlight := true, hasSongData := true })) s.uuid,
       none, [some (Value.vstr m)]) := by
    simp [prepareSong, hs, hnp, hif, hev, deliverPrep, prepHandler]
  rw [key]
  refine ⟨rfl, rfl, ?_, ?_⟩
  · simp [setPrepareTimeout, PState.updateSong, hu]
  · rw [← hu]
    simp only [setPrepareTimeout]
    have hs' : st.queue.findSong s.uuid = some s := by rw [hu]; exact hs
    have h1 := findSong_updateSong
      ({ st with trace := st.trace ++ [TraceEv.fetchStart s.uuid] } : PState)
      s.uuid (fun t => { t with inFlight := true, hasSongData := true })
      (fun t => rfl) s hs'
    exact findSong_updateSong _ s.uuid (fun t => { t with prepareTimeout := true })
      (fun t => rfl) _ h1

/-- The failing input for C3: a queued song whose fetch reports an error,
holding a cancelPrepare capability. -/
def c3Song : SongP :=
  { uuid := "e", hasCancelPrepare := true,
    fetchEvents := [{ err := some "fetch failed", chunk := 0, done := false }] }

/-- The player state for C3's failing input. -/
def c3State : PState := { queue := { songs := [c3Song] } }

/-- C3, at the failing input: the fetch reports an error, and the pipeline
invokes the series callback with that error but performs none of the
claimed cleanup — no onSongPrepareError hook fires (the trace holds only
the fetch start), the cancelPrepare capability is kept, the buffered data
stays in the registry, and the watchdog stays armed. -/
theorem prepareSong_error_divergence :
    (prepareSong c3State (some "e")).2.2 = [some (Value.vstr "fetch failed")]
    ∧ (prepareSong c3State (some "e")).2.1 = none
    ∧ (prepareSong c3State (some "e")).1.trace =
        c3State.trace ++ [TraceEv.fetchStart "e"]
    ∧ (prepareSong c3State (some "e")).1.queue.findSong "e" =
        some { c3Song with
               inFlight := true
               hasSongData := true
               prepareTimeout := true } :=
  prepareSong_error_no_cleanup c3State "e" c3Song "fetch failed" rfl rfl rfl rfl

/-- C9. init runs its four stages strictly in order: after stage one the
plugins map is the builtin-plugin load result and its hook has fired;
after stage two the external plugins are merged over it and its hook has
fired; stages three and four do the same for the backends maps (never
touching the plugins merged before); the overall trace shows the four
stage hooks in order followed by onReady, which fires only after all four
merges, on the fully merged state. -/
theorem init_stage_ordering (st : PState) (bp ep : List Plugin)
    (bb eb : List Backend) :
    (initStage1 st bp).plugins = bp
    ∧ (initStage1 st bp).backends = st.backends
    ∧ (initStage1 st bp).trace = st.trace ++
        [TraceEv.hook "onBuiltinPluginsInitialized" []]
    ∧ (initStage2 (initStage1 st bp) ep).plugins = extendBy Plugin.name bp ep
    ∧ (initStage2 (initStage1 st bp) ep).trace = (initStage1 st bp).trace ++
        [TraceEv.hook "onPluginsInitialized" []]
    ∧ (initStage3 (initStage2 (initStage1 st bp) ep) bb).backends = bb
    ∧ (initStage3 (initStage2 (initStage1 st bp) ep) bb).plugins =
        extendBy Plugin.name bp ep
    ∧ (initStage3 (initStage2 (initStage1 st bp) ep) bb).trace =
        (initStage2 (initStage1 st bp) ep).trace ++
        [TraceEv.hook "onBuiltinBackendsInitialized" []]
    ∧ (initStage4 (initStage3 (initStage2 (initStage1 st bp) ep) bb) eb).backends =
        extendBy Backend.name bb eb
    ∧ (initStage4 (initStage3 (initStage2 (initStage1 st bp) ep) bb) eb).plugins =
        extendBy Plugin.name bp ep
    ∧ (initStage4 (initStage3 (initStage2 (initStage1 st bp) ep) bb) eb).trace =
        (initStage3 (initStage2 (initStage1 st bp) ep) bb).trace ++
        [TraceEv.hook "onBackendsInitialized" []]
    ∧ Player.init st bp ep bb eb =
        ((initStage4 (initStage3 (initStage2 (initStage1 st bp) ep) bb) eb).callHooksP
          "onReady" []).1
    ∧ (Player.init st bp ep bb eb).plugins = extendBy Plugin.name bp ep
    ∧ (Player.init st bp ep bb eb).backends = extendBy Backend.name bb eb
    ∧ (Player.init st bp ep bb eb).trace = st.trace ++
        [TraceEv.hook "onBuiltinPluginsInitialized" [],
         TraceEv.hook "onPluginsInitialized" [],
         TraceEv.hook "onBuiltinBackendsInitialized" [],
         TraceEv.hook "onBackendsInitialized" [],
         TraceEv.hook "onReady" []] := by
  refine ⟨rfl, rfl, rfl, rfl, rfl, rfl, rfl, rfl, rfl, rfl, rfl, rfl, rfl, rfl, ?_⟩
  simp [Player.init, initStage1, initStage2, initStage3, initStage4,
    PState.callHooksP, List.append_assoc]

/- Aggregator join lemmas (C6). -/

lemma searchJoinStep_cnt (P : List Plugin) (total : Nat) (js : SearchJoin)
    (b : Backend) : (searchJoinStep P total js b).resultCnt = js.resultCnt + 1 := by
  cases hr : b.searchReport <;> simp [searchJoinStep, hr]

lemma searchJoinStep_fired (P : List Plugin) (total : Nat) (js : SearchJoin)
    (b : Backend) : (searchJoinStep P total js b).fired =
      if total ≤ js.resultCnt + 1 then js.fired + 1 else js.fired := by
  cases hr : b.searchReport <;> simp [searchJoinStep, hr]

lemma searchFold_cnt (P : List Plugin) (total : Nat) :
    ∀ (l : List Backend) (js : SearchJoin),
      (l.foldl (searchJoinStep P total) js).resultCnt = js.resultCnt + l.length
  | [], js => by simp
  | b :: bs, js => by
      rw [List.foldl_cons, searchFold_cnt P total bs, searchJoinStep_cnt]
      simp only [List.length_cons]
      omega

lemma searchFold_fired_lt (P : List Plugin) (total : Nat) :
    ∀ (l : List Backend) (js : SearchJoin),
      js.resultCnt + l.length < total →
      (l.foldl (searchJoinStep P total) js).fired = js.fired
  | [], js, _ => by simp
  | b :: bs, js, h => by
      rw [List.foldl_cons]
      rw [searchFold_fired_lt P total bs (searchJoinStep P total js b)
        (by rw [searchJoinStep_cnt]; simp only [List.length_cons] at h; omega)]
      rw [searchJoinStep_fired]
      have : ¬ total ≤ js.resultCnt + 1 := by
        simp only [List.length_cons] at h; omega
      simp [this]

lemma searchFold_fired_last (P : List Plugin) (total : Nat) :
    ∀ (l : List Backend) (js : SearchJoin),
      js.resultCnt + l.length = total → l ≠ [] →
      (l.foldl (searchJoinStep P total) js).fired = js.fired + 1
  | [], _, _, hne => absurd rfl hne
  | b :: [], js, h, _ => by
      simp only [List.foldl_cons, List.foldl_nil]
      rw [searchJoinStep_fired]
      simp only [List.length_cons, List.length_nil] at h
      have hle : total ≤ js.resultCnt + 1 := by omega
      simp [hle]
  | b :: c :: cs, js, h, _ => by
      rw [List.foldl_cons]
      simp only [List.length_cons] at h
      rw [searchFold_fired_last P total (c :: cs) (searchJoinStep P total js b)
        (by rw [searchJoinStep_cnt]; simp only [List.length_cons]; omega)
        (by simp)]
      rw [searchJoinStep_fired]
      have hnle : ¬ total ≤ js.resultCnt + 1 := by omega
      simp [hnle]

lemma plStep_cnt (total : Nat) (js : PlJoin) (b : Backend) :
    (plStep total js b).resultCnt = js.resultCnt + 1 := by
  simp [plStep]

lemma plStep_fired (total : Nat) (js : PlJoin) (b : Backend) :
    (plStep total js b).fired =
      if total ≤ js.resultCnt + 1 then js.fired + 1 else js.fired := by
  simp [plStep]

lemma plMissingStep_cnt (total : Nat) (js : PlJoin) :
    (plMissingStep total js).resultCnt = js.resultCnt + 1 := by
  simp [plMissingStep]

lemma plMissingStep_fired (total : Nat) (js : PlJoin) :
    (plMissingStep total js).fired =
      if total ≤ js.resultCnt + 1 then js.fired + 1 else js.fired := by
  simp [plMissingStep]

lemma plFold_cnt (total : Nat) :
    ∀ (l : List Backend) (js : PlJoin),
      (l.foldl (plStep total) js).resultCnt = js.resultCnt + l.length
  | [], js => by simp
  | b :: bs, js => by
      rw [List.foldl_cons, plFold_cnt total bs, plStep_cnt]
      simp only [List.length_cons]
      omega

lemma plFold_fired_lt (total : Nat) :
    ∀ (l : List Backend) (js : PlJoin),
      js.resultCnt + l.length < total →
      (l.foldl (plStep total) js).fired = js.fired
  | [], js, _ => by simp
  | b :: bs, js, h => by
      rw [List.foldl_cons]
      rw [plFold_fired_lt total bs (plStep total js b)
        (by rw [plStep_cnt]; simp only [List.length_cons] at h; omega)]
      rw [plStep_fired]
      have hnle : ¬ total ≤ js.resultCnt + 1 := by
        simp only [List.length_cons] at h; omega
      simp [hnle]

lemma plFold_fired_last (total : Nat) :
    ∀ (l : List Backend) (js : PlJoin),
      js.resultCnt + l.length = total → l ≠ [] →
      (l.foldl (plStep total) js).fired = js.fired + 1
  | [], _, _, hne => absurd rfl hne
  | b :: [], js, h, _ => by
      simp only [List.foldl_cons, List.foldl_nil]
      rw [plStep_fired]
      simp only [List.length_cons, List.length_nil] at h
      have hle : total ≤ js.resultCnt + 1 := by omega
      simp [hle]
  | b :: c :: cs, js, h, _ => by
      rw [List.foldl_cons]
      simp only [List.length_cons] at h
      rw [plFold_fired_last total (c :: cs) (plStep total js b)
        (by rw [plStep_cnt]; simp only [List.length_cons]; omega)
        (by simp)]
      rw [plStep_fired]
      have hnle : ¬ total ≤ js.resultCnt + 1 := by omega
      simp [hnle]

lemma plMissFold_cnt (total : Nat) :
    ∀ (l : List Backend) (js : PlJoin),
      (l.foldl (fun j _ => plMissingStep total j) js).resultCnt =
        js.resultCnt + l.length
  | [], js => by simp
  | b :: bs, js => by
      rw [List.foldl_cons, plMissFold_cnt total bs, plMissingStep_cnt]
      simp only [List.length_cons]
      omega

lemma plMissFold_fired_lt (total : Nat) :
    ∀ (l : List Backend) (js : PlJoin),
      js.resultCnt + l.length < total →
      (l.foldl (fun j _ => plMissingStep total j) js).fired = js.fired
  | [], js, _ => by simp
  | b :: bs, js, h => by
      rw [List.foldl_cons]
      rw [plMissFold_fired_lt total bs (plMissingStep total js)
        (by rw [plMissingStep_cnt]; simp only [List.length_cons] at h; omega)]
      rw [plMissingStep_fired]
      have hnle : ¬ total ≤ js.resultCnt + 1 := by
        simp only [List.length_cons] at h; omega
      simp [hnle]

lemma plMissFold_fired_last (total : Nat) :
    ∀ (l : List Backend) (js : PlJoin),
      js.resultCnt + l.length = total → l ≠ [] →
      (l.foldl (fun j _ => plMissingStep total j) js).fired = js.fired + 1
  | [], _, _, hne => absurd rfl hne
  | b :: [], js, h, _ => by
      simp only [List.foldl_cons, List.foldl_nil]
      rw [plMissingStep_fired]
      simp only [List.length_cons, List.length_nil] at h
      have hle : total ≤ js.resultCnt + 1 := by omega
      simp [hle]
  | b :: c :: cs, js, h, _ => by
      rw [List.foldl_cons]
      simp only [List.length_cons] at h
      rw [plMissFold_fired_last total (c :: cs) (plMissingStep total js)
        (by rw [plMissingStep_cnt]; simp only [List.length_cons]; omega)
        (by simp)]
      rw [plMissingStep_fired]
      have hnle : ¬ total ≤ js.resultCnt + 1 := by omega
      simp [hnle]

lemma getPlaylistsIssue_spec (total : Nat) :
    ∀ (bs : List Backend) (js : PlJoin) (pending : List Backend),
      getPlaylistsIssue total (js, pending) bs =
        ((bs.filter (fun b => !b.hasGetPlaylists)).foldl
            (fun j _ => plMissingStep total j) js,
         pending ++ bs.filter (fun b => b.hasGetPlaylists))
  | [], js, pending => by simp [getPlaylistsIssue]
  | b :: bs, js, pending => by
      cases hb : b.hasGetPlaylists with
      | true =>
          rw [getPlaylistsIssue, hb]
          simp only [if_true]
          rw [getPlaylistsIssue_spec total bs js (pending ++ [b])]
          simp [List.filter_cons, hb, List.append_assoc]
      | false =>
          rw [getPlaylistsIssue, hb]
          simp only [Bool.false_eq_true, if_false]
          rw [getPlaylistsIssue_spec total bs (plMissingStep total js) pending]
          simp [List.filter_cons, hb]

/-- C6, counterexample: with zero registered backends neither
searchBackends nor getPlaylists ever invokes its completion callback (the
fan-out loop has no iterations, and the completion check lives only inside
the per-backend handlers), so the callback is not invoked exactly once for
every set of registered backends. -/
theorem aggregator_empty_counterexample :
    ¬ ((searchBackendsRun {} []).fired = 1 ∧ (getPlaylistsRun {} []).fired = 1) := by
  decide

/-- C6, amended: for every nonempty set of registered backends, and
whatever order the backends' reports arrive in, searchBackends and
getPlaylists invoke their completion callback exactly once, and only with
the arrival of the last outstanding report (every proper prefix of the
asynchronous completions leaves the callback uninvoked); in getPlaylists a
backend lacking the capability is counted as immediately complete during
the fan-out.  With zero backends the callback is never invoked. -/
theorem aggregator_fires_exactly_once (st : PState) (sorder porder : List Backend)
    (hs : sorder.Perm st.backends)
    (hp : porder.Perm (st.backends.filter (fun b => b.hasGetPlaylists)))
    (hne : st.backends ≠ []) :
    (searchBackendsRun st sorder).fired = 1
    ∧ (∀ k, k < sorder.length → (searchBackendsRun st (sorder.take k)).fired = 0)
    ∧ (getPlaylistsRun st porder).fired = 1
    ∧ (∀ k, k < porder.length → (getPlaylistsRun st (porder.take k)).fired = 0) := by
  have htot : 0 < st.backends.length := List.length_pos.mpr hne
  have hslen : sorder.length = st.backends.length := hs.length_eq
  have hplen : porder.length =
      (st.backends.filter (fun b => b.hasGetPlaylists)).length := hp.length_eq
  have hsplit : st.backends.length =
      (st.backends.filter (fun b => b.hasGetPlaylists)).length +
      (st.backends.filter (fun b => !b.hasGetPlaylists)).length := by
    simpa using
      @List.length_eq_length_filter_add Backend st.backends (fun b => b.hasGetPlaylists)
  have hsne : sorder ≠ [] := by
    intro h0
    rw [h0] at hslen
    simp at hslen
    omega
  have key := getPlaylistsIssue_spec st.backends.length st.backends {} []
  refine ⟨?_, ?_, ?_, ?_⟩
  · unfold searchBackendsRun
    rw [searchFold_fired_last st.plugins st.backends.length sorder {}
      (by simpa using hslen) hsne]
  · intro k hk
    unfold searchBackendsRun
    rw [searchFold_fired_lt st.plugins st.backends.length (sorder.take k) {}
      (by
        have hkl : (sorder.take k).length = k := by
          rw [List.length_take]
          omega
        simp only [hkl]
        show 0 + k < st.backends.length
        omega)]
  · simp only [getPlaylistsRun, key]
    by_cases hpo : porder = []
    · subst hpo
      simp only [List.foldl_nil]
      rw [plMissFold_fired_last st.backends.length
        (st.backends.filter (fun b => !b.hasGetPlaylists)) {}
        (by
          show 0 + _ = _
          simp only [List.length_nil] at hplen
          omega)
        (by
          intro h0
          rw [h0] at hsplit
          simp only [List.length_nil] at hsplit
          simp only [List.length_nil] at hplen
          omega)]
    · have hpp : 0 < porder.length := List.length_pos.mpr hpo
      have hc := plMissFold_cnt st.backends.length
        (st.backends.filter (fun b => !b.hasGetPlaylists)) {}
      have hf0 := plMissFold_fired_lt st.backends.length
        (st.backends.filter (fun b => !b.hasGetPlaylists)) {}
        (by
          show 0 + _ < _
          omega)
      rw [plFold_fired_last st.backends.length porder _
        (by rw [hc]; show 0 + _ + _ = _; omega) hpo]
      rw [hf0]
  · intro k hk
    simp only [getPlaylistsRun, key]
    have hpp : 0 < porder.length := by omega
    have hc := plMissFold_cnt st.backends.length
      (st.backends.filter (fun b => !b.hasGetPlaylists)) {}
    have hf0 := plMissFold_fired_lt st.backends.length
      (st.backends.filter (fun b => !b.hasGetPlaylists)) {}
      (by
        show 0 + _ < _
        omega)
    rw [plFold_fired_lt st.backends.length (porder.take k) _
      (by
        rw [hc]
        have hkl : (porder.take k).length = k := by
          rw [List.length_take]
          omega
        rw [hkl]
        show 0 + _ + k < _
        omega)]
    rw [hf0]

/-- A backend exposing getPlaylists, for the C6 witness. -/
def wB1 : Backend := { name := "b1", hasGetPlaylists := true }

/-- A backend lacking getPlaylists, for the C6 witness. -/
def wB2 : Backend := { name := "b2" }

/-- The two-backend player state for the C6 witness. -/
def wSt : PState := { backends := [wB1, wB2] }

/-- Witness for the amended C6 theorem at two backends, one of which lacks
the getPlaylists capability. -/
theorem aggregator_fires_exactly_once_witness :
    (searchBackendsRun wSt [wB1, wB2]).fired = 1
    ∧ (getPlaylistsRun wSt [wB1]).fired = 1 :=
  ⟨(aggregator_fires_exactly_once wSt [wB1, wB2] [wB1]
      (List.Perm.refl _) (List.Perm.refl _) (by decide)).1,
   (aggregator_fires_exactly_once wSt [wB1, wB2] [wB1]
      (List.Perm.refl _) (List.Perm.refl _) (by decide)).2.2.1⟩

/- Queue-advance lemmas (C8).  The preservation arguments below track, for
every operation the songEnd cascade can run, that the now-playing
reference is never reassigned while set, that song identities in the queue
are never rewritten, and that the trace only grows. -/

/-- The uuids of the queued songs, in order. -/
def uuidList (st : PState) : List String :=
  st.queue.songs.map (fun t => t.uuid)

/-- One Player step preserves the now-playing reference and the queued
song identities, and only appends to the trace. -/
def stepOK (st st' : PState) : Prop :=
  st'.nowPlaying = st.nowPlaying ∧ uuidList st' = uuidList st
  ∧ ∃ tr, st'.trace = st.trace ++ tr

lemma stepOK_refl (st : PState) : stepOK st st :=
  ⟨rfl, rfl, [], by simp⟩

lemma stepOK_trans {s1 s2 s3 : PState} (h1 : stepOK s1 s2) (h2 : stepOK s2 s3) :
    stepOK s1 s3 := by
  obtain ⟨a1, b1, t1, c1⟩ := h1
  obtain ⟨a2, b2, t2, c2⟩ := h2
  exact ⟨a2.trans a1, b2.trans b1, t1 ++ t2, by rw [c2, c1, List.append_assoc]⟩

lemma uuidList_updateSong (st : PState) (u : String) (f : SongP → SongP)
    (hf : ∀ t, (f t).uuid = t.uuid) :
    uuidList (st.updateSong u f) = uuidList st := by
  unfold uuidList PState.updateSong
  simp only [List.map_map]
  apply List.map_congr_left
  intro t _
  simp only [Function.comp]
  by_cases h : (t.uuid == u) = true
  · simp [h, hf t]
  · simp only [Bool.not_eq_true] at h
    simp [h]

lemma updateSong_stepOK (st : PState) (u : String) (f : SongP → SongP)
    (hf : ∀ t, (f t).uuid = t.uuid) : stepOK st (st.updateSong u f) :=
  ⟨rfl, uuidList_updateSong st u f hf, [], by simp [PState.updateSong]⟩

lemma playbackStarted_stepOK (st : PState) (u : String) (pos : Int) :
    stepOK st (playbackStarted st u pos) := by
  unfold playbackStarted
  refine ⟨rfl, ?_, [], by simp [PState.updateSong]⟩
  show uuidList _ = uuidList st
  have h1 := uuidList_updateSong st u
    (fun s => { s with playback := { startTime := st.now, startPos := pos } })
    (fun t => rfl)
  unfold uuidList at h1 ⊢
  simpa using h1

lemma setPrepareTimeout_stepOK (st : PState) (u : String) :
    stepOK st (setPrepareTimeout st u) :=
  updateSong_stepOK st u _ (fun t => rfl)

lemma clearPrepareTimeout_stepOK (st : PState) (u : String) :
    stepOK st (clearPrepareTimeout st u) :=
  updateSong_stepOK st u _ (fun t => rfl)

lemma callHooksP_stepOK (st : PState) (hook : String) (args : List Value) :
    stepOK st (st.callHooksP hook args).1 :=
  ⟨rfl, rfl, [TraceEv.hook hook args], rfl⟩

lemma findSong_of_mem_uuidList (q : QueueP) (u : String)
    (h : u ∈ q.songs.map (fun t => t.uuid)) :
    ∃ np, q.findSong u = some np ∧ np.uuid = u := by
  unfold QueueP.findSong
  rcases List.mem_map.mp h with ⟨t, ht, hu⟩
  have hex : ∃ x, x ∈ q.songs ∧ (fun t => t.uuid == u) x = true :=
    ⟨t, ht, by simp [hu]⟩
  rcases List.find?_isSome.mpr hex with h2
  rcases Option.isSome_iff_exists.mp h2 with ⟨np, hnp⟩
  exact ⟨np, hnp, by simpa using List.find?_some hnp⟩

lemma mem_uuidList_of_findSong (st : PState) (u : String) (s : SongP)
    (h : st.queue.findSong u = some s) : u ∈ uuidList st := by
  unfold uuidList
  have hm : s ∈ st.queue.songs := List.mem_of_find?_eq_some h
  have hu : s.uuid = u := findSong_uuid_eq st.queue u s h
  exact List.mem_map.mpr ⟨s, hm, hu⟩

lemma find?_head_self (x : SongP) (l : List SongP) :
    (x :: l).find? (fun t => t.uuid == x.uuid) = some x := by
  simp [List.find?_cons]

lemma find?_append_last (s : SongP) :
    ∀ (ss : List SongP), (∀ t ∈ ss, t.uuid ≠ s.uuid) →
      (ss ++ [s]).find? (fun t => t.uuid == s.uuid) = some s
  | [], _ => by simp [List.find?_cons]
  | t :: ts, h => by
      have ht : (t.uuid == s.uuid) = false := by
        simp [h t (List.mem_cons_self t ts)]
      rw [List.cons_append, List.find?_cons, ht]
      simp only [Bool.false_eq_true, if_false]
      exact find?_append_last s ts (fun r hr => h r (List.mem_cons_of_mem t hr))

lemma findIdx?_append_last (s : SongP) (hp : (s.uuid == s.uuid) = true) :
    ∀ (ss : List SongP) (i : Nat), (∀ t ∈ ss, t.uuid ≠ s.uuid) →
      List.findIdx? (fun t => t.uuid == s.uuid) (ss ++ [s]) i = some (i + ss.length)
  | [], i, _ => by simp [List.findIdx?_cons, hp]
  | t :: ts, i, h => by
      have ht : (t.uuid == s.uuid) = false := by
        simp [h t (List.mem_cons_self t ts)]
      rw [List.cons_append, List.findIdx?_cons, ht]
      simp only [Bool.false_eq_true, if_false]
      rw [findIdx?_append_last s hp ts (i + 1)
        (fun r hr => h r (List.mem_cons_of_mem t hr))]
      congr 1
      simp only [List.length_cons]
      omega

lemma spCallback_stepOK (st : PState) (pos : Int) (e : FetchEvent) :
    stepOK st (spCallback st pos e).1 := by
  unfold spCallback
  cases he : e.err with
  | some m => exact stepOK_refl st
  | none =>
      cases hnp : st.getNowPlaying with
      | none => exact stepOK_refl st
      | some np =>
          refine stepOK_trans (playbackStarted_stepOK st np.uuid
            (if pos = 0 then np.playback.startPos else pos)) ?_
          exact ⟨rfl, rfl, [], by simp⟩

lemma deliverSP_stepOK (pos : Int) :
    ∀ (st : PState) (evs : List FetchEvent), stepOK st (deliverSP pos st evs).1
  | st, [] => stepOK_refl st
  | st, e :: es => by
      rw [deliverSP]
      rcases hsc : spCallback st pos e with ⟨st1, x⟩
      have h1 : stepOK st st1 := by
        have h0 := spCallback_stepOK st pos e
        rw [hsc] at h0
        exact h0
      cases x with
      | none =>
          exact stepOK_trans h1 (deliverSP_stepOK pos st1 es)
      | some xx => exact h1

lemma songPrepareSP_stepOK (st : PState) (pos : Int) :
    stepOK st (songPrepareSP st pos).1 := by
  rcases hnp : st.getNowPlaying with _ | np
  · simp only [songPrepareSP, hnp]
    exact stepOK_refl st
  · simp only [songPrepareSP, hnp]
    · by_cases hprep : np.prepared = true
      · rw [if_pos hprep]
        exact spCallback_stepOK st pos _
      · rw [if_neg hprep]
        by_cases hif : np.inFlight = true
        · rw [if_pos hif]
          exact stepOK_refl st
        · rw [if_neg hif]
          refine stepOK_trans (?_ :
            stepOK st ({ st with
              trace := st.trace ++ [TraceEv.fetchStart np.uuid] } : PState)) ?_
          · exact ⟨rfl, rfl, [TraceEv.fetchStart np.uuid], rfl⟩
          · refine stepOK_trans (updateSong_stepOK _ np.uuid
              (fun s => { s with inFlight := true, hasSongData := true })
              (fun t => rfl)) ?_
            exact deliverSP_stepOK pos _ np.fetchEvents

lemma startPlayback_stepOK (st : PState) (pos : Int) (u : String)
    (h : st.nowPlaying = some u) : stepOK st (startPlayback st pos).1 := by
  simp only [startPlayback, h, Option.isNone_some, Bool.false_eq_true, if_false]
  refine stepOK_trans (?_ : stepOK st
    ({ st with
       nowPlaying := some u
       trace := st.trace ++ [TraceEv.startPlaybackCall] } : PState)) ?_
  · exact ⟨h.symm, rfl, [TraceEv.startPlaybackCall], rfl⟩
  · exact songPrepareSP_stepOK _ pos

lemma prepareProgFinish_stepOK (st1 : PState) (uuid : String) (b : Nat)
    (d : Bool) : stepOK st1 (prepareProgFinish st1 uuid b d).1 := by
  simp only [prepareProgFinish]
  by_cases hd : d = true
  · rw [if_pos hd]
    refine stepOK_trans (callHooksP_stepOK st1 "onPrepareProgress"
      [Value.vstr uuid, Value.vnum (b : ℚ), Value.vbool d]) ?_
    refine stepOK_trans (callHooksP_stepOK _ "onSongPrepared" [Value.vstr uuid]) ?_
    refine stepOK_trans (updateSong_stepOK _ uuid (fun s =>
      { s with hasCancelPrepare := false, hasSongData := false, inFlight := false })
      (fun t => rfl)) ?_
    exact clearPrepareTimeout_stepOK _ uuid
  · rw [if_neg hd]
    refine stepOK_trans (callHooksP_stepOK st1 "onPrepareProgress"
      [Value.vstr uuid, Value.vnum (b : ℚ), Value.vbool d]) ?_
    exact setPrepareTimeout_stepOK _ uuid

lemma prepareProgCallback_stepOK (st : PState) (uuid : String) (b : Nat)
    (d : Bool) : stepOK st (prepareProgCallback st uuid b d).1 := by
  rcases hnp : st.nowPlaying with _ | u
  · have hg : st.getNowPlaying = none := by simp [PState.getNowPlaying, hnp]
    simp only [prepareProgCallback, hg, Bool.and_false, Bool.false_and,
      Bool.false_eq_true, if_false]
    exact prepareProgFinish_stepOK st uuid b d
  · rcases hf : st.queue.findSong u with _ | np
    · have hg : st.getNowPlaying = none := by
        simp [PState.getNowPlaying, hnp, hf]
      simp only [prepareProgCallback, hg, Bool.and_false, Bool.false_and,
        Bool.false_eq_true, if_false]
      exact prepareProgFinish_stepOK st uuid b d
    · have hg : st.getNowPlaying = some np := by
        simp [PState.getNowPlaying, hnp, hf]
      simp only [prepareProgCallback, hg]
      cases hB : st.play && (np.uuid == uuid) && !st.queue.playbackStart
          && (b != 0) with
      | false =>
          simp only [hB, Bool.false_eq_true, if_false]
          exact prepareProgFinish_stepOK st uuid b d
      | true =>
          simp only [hB, if_true]
          rcases hsp : startPlayback st 0 with ⟨st1, x⟩
          have h1 : stepOK st st1 := by
            have h0 := startPlayback_stepOK st 0 u hnp
            rw [hsp] at h0
            exact h0
          cases x with
          | some xx => exact h1
          | none => exact stepOK_trans h1 (prepareProgFinish_stepOK st1 uuid b d)

lemma prepHandler_stepOK (uuid : String) (st : PState) (e : FetchEvent) :
    stepOK st (prepHandler uuid st e).1 := by
  cases he : e.err with
  | some m =>
      simp only [prepHandler, he]
      exact stepOK_refl st
  | none =>
      simp only [prepHandler, he]
      cases hc : (e.chunk != 0) with
      | false =>
          simp only [hc, Bool.false_eq_true, if_false]
          by_cases hd : e.done = true
          · rw [if_pos hd]
            exact clearPrepareTimeout_stepOK st uuid
          · rw [if_neg hd]
            exact stepOK_refl st
      | true =>
          simp only [hc, if_true]
          rcases hpc : prepareProgCallback st uuid e.chunk e.done with ⟨st1, x⟩
          have h1 : stepOK st st1 := by
            have h0 := prepareProgCallback_stepOK st uuid e.chunk e.done
            rw [hpc] at h0
            exact h0
          cases x with
          | some xx => exact h1
          | none =>
              show stepOK st (if e.done = true
                  then (clearPrepareTimeout st1 uuid, (none : Option JsErr),
                        ([none] : List (Option Value)))
                  else (st1, (none : Option JsErr), ([] : List (Option Value)))).1
              by_cases hd : e.done = true
              · rw [if_pos hd]
                exact stepOK_trans h1 (clearPrepareTimeout_stepOK st1 uuid)
              · rw [if_neg hd]
                exact h1

lemma deliverPrep_stepOK (uuid : String) :
    ∀ (st : PState) (evs : List FetchEvent),
      stepOK st (deliverPrep uuid st evs).1
  | st, [] => stepOK_refl st
  | st, e :: es => by
      rw [deliverPrep]
      rcases hph : prepHandler uuid st e with ⟨st1, x, ds⟩
      have h1 : stepOK st st1 := by
        have h0 := prepHandler_stepOK uuid st e
        rw [hph] at h0
        exact h0
      cases x with
      | some xx => exact h1
      | none => exact stepOK_trans h1 (deliverPrep_stepOK uuid st1 es)

lemma prepareSong_stepOK (st : PState) (u? : Option String) :
    stepOK st (prepareSong st u?).1 := by
  rcases hfind : u?.bind (fun u => st.queue.findSong u) with _ | s
  · simp only [prepareSong, hfind]
    exact stepOK_refl st
  · simp only [prepareSong, hfind]
    by_cases hprep : s.prepared = true
    · rw [if_pos hprep]
      rcases hnp : st.nowPlaying with _ | u
      · have hg : st.getNowPlaying = none := by
          simp [PState.getNowPlaying, hnp]
        simp only [hg, Bool.and_false, Bool.false_and, Bool.false_eq_true,
          if_false]
        exact stepOK_refl st
      · rcases hf2 : st.queue.findSong u with _ | np
        · have hg : st.getNowPlaying = none := by
            simp [PState.getNowPlaying, hnp, hf2]
          simp only [hg, Bool.and_false, Bool.false_and, Bool.false_eq_true,
            if_false]
          exact stepOK_refl st
        · have hg : st.getNowPlaying = some np := by
            simp [PState.getNowPlaying, hnp, hf2]
          simp only [hg]
          cases hB : st.play && (np.uuid == s.uuid) && !st.queue.playbackStart with
          | false =>
              simp only [hB, Bool.false_eq_true, if_false]
              exact stepOK_refl st
          | true =>
              simp only [hB, if_true]
              rcases hsp : startPlayback st 0 with ⟨st1, x⟩
              have h1 : stepOK st st1 := by
                have h0 := startPlayback_stepOK st 0 u hnp
                rw [hsp] at h0
                exact h0
              cases x with
              | some xx => exact h1
              | none => exact h1
    · rw [if_neg hprep]
      cases hsf : s.inFlight with
      | true =>
          simp [hsf]
          exact setPrepareTimeout_stepOK st s.uuid
      | false =>
          simp only [hsf, Bool.not_false, if_true]
          refine stepOK_trans (?_ : stepOK st ({ st with
            trace := st.trace ++ [TraceEv.fetchStart s.uuid] } : PState)) ?_
          · exact ⟨rfl, rfl, [TraceEv.fetchStart s.uuid], rfl⟩
          · refine stepOK_trans (updateSong_stepOK _ s.uuid (fun t =>
              { t with inFlight := true, hasSongData := true }) (fun t => rfl)) ?_
            refine stepOK_trans (setPrepareTimeout_stepOK _ s.uuid) ?_
            exact deliverPrep_stepOK s.uuid _ s.fetchEvents

lemma prepareSongsTask2_stepOK (st1 : PState) (cur : SongP) :
    stepOK st1 (prepareSongsTask2 st1 cur).1 := by
  rcases hnx : listAtInt st1.queue.songs (st1.queue.findSongIndex cur.uuid + 1)
    with _ | nxt
  · simp only [prepareSongsTask2, hnx]
    exact stepOK_refl st1
  · simp only [prepareSongsTask2, hnx]
    rcases hp2 : prepareSong st1 (some nxt.uuid) with ⟨st2, y, ds2⟩
    have h2 : stepOK st1 st2 := by
      have h0 := prepareSong_stepOK st1 (some nxt.uuid)
      rw [hp2] at h0
      exact h0
    cases y with
    | some xx => exact h2
    | none => exact h2

lemma prepareSongsWithCur_stepOK (st0 : PState) (cur : SongP) :
    stepOK st0 (prepareSongsWithCur st0 cur).1 := by
  simp only [prepareSongsWithCur]
  rcases hp1 : prepareSong st0 (some cur.uuid) with ⟨st1, x, ds⟩
  have h1 : stepOK st0 st1 := by
    have h0 := prepareSong_stepOK st0 (some cur.uuid)
    rw [hp1] at h0
    exact h0
  cases x with
  | some xx => exact h1
  | none =>
      show stepOK st0 (match ds.head? with
        | none => ((st1 : PState), (none : Option JsErr))
        | some a => if doneTruthy a = true then (st1, none)
                    else prepareSongsTask2 st1 cur).1
      rcases hh : ds.head? with _ | a
      · exact h1
      · show stepOK st0 (if doneTruthy a = true
            then ((st1 : PState), (none : Option JsErr))
            else prepareSongsTask2 st1 cur).1
        by_cases hdt : doneTruthy a = true
        · rw [if_pos hdt]
          exact h1
        · rw [if_neg hdt]
          exact stepOK_trans h1 (prepareSongsTask2_stepOK st1 cur)

lemma prepareSongs_spec (st : PState) :
    (prepareSongs st).1.nowPlaying = st.nowPlaying
    ∧ uuidList (prepareSongs st).1 = uuidList st
    ∧ TraceEv.prepareSongsCall ∈ (prepareSongs st).1.trace := by
  have hm : TraceEv.prepareSongsCall ∈
      ({ st with trace := st.trace ++ [TraceEv.prepareSongsCall] } : PState).trace := by
    simp
  have final : ∀ s' : PState,
      stepOK ({ st with trace := st.trace ++ [TraceEv.prepareSongsCall] } : PState) s' →
      (s'.nowPlaying = st.nowPlaying ∧ uuidList s' = uuidList st
       ∧ TraceEv.prepareSongsCall ∈ s'.trace) := by
    rintro s' ⟨h1, h2, tr, h3⟩
    refine ⟨h1, h2, ?_⟩
    rw [h3]
    exact List.mem_append_left _ hm
  simp only [prepareSongs]
  rcases hg : ({ st with trace := st.trace ++ [TraceEv.prepareSongsCall] } : PState).getNowPlaying
    with _ | c
  · rcases hh : ({ st with trace := st.trace ++ [TraceEv.prepareSongsCall] } : PState).queue.songs.head?
      with _ | c2
    · exact final _ (stepOK_refl _)
    · exact final _ (prepareSongsWithCur_stepOK _ c2)
  · exact final _ (prepareSongsWithCur_stepOK _ c)

lemma spCallback_success (st : PState) (pos : Int) (e : FetchEvent) (np : SongP)
    (he : e.err = none) (hg : st.getNowPlaying = some np) :
    spCallback st pos e =
      ({ playbackStarted st np.uuid
           (if pos = 0 then np.playback.startPos else pos) with play := true },
       none) := by
  simp only [spCallback, he, hg]

lemma deliverSP_no_err (pos : Int) :
    ∀ (evs : List FetchEvent) (st : PState) (u : String),
      st.nowPlaying = some u → u ∈ uuidList st →
      (∀ e ∈ evs, e.err = none) → (deliverSP pos st evs).2 = none
  | [], _, _, _, _, _ => rfl
  | e :: es, st, u, h1, h2, h3 => by
      rw [deliverSP]
      obtain ⟨np, hnp, hu⟩ := findSong_of_mem_uuidList st.queue u h2
      have hg : st.getNowPlaying = some np := by
        simp [PState.getNowPlaying, h1, hnp]
      have he : e.err = none := h3 e (List.mem_cons_self e es)
      rw [spCallback_success st pos e np he hg]
      have hOK : stepOK st ({ playbackStarted st np.uuid
          (if pos = 0 then np.playback.startPos else pos) with play := true } : PState) := by
        have h0 := spCallback_stepOK st pos e
        rw [spCallback_success st pos e np he hg] at h0
        exact h0
      obtain ⟨ha, hb, _⟩ := hOK
      exact deliverSP_no_err pos es _ u (by rw [ha]; exact h1)
        (by rw [hb]; exact h2)
        (fun e2 he2 => h3 e2 (List.mem_cons_of_mem e he2))

lemma songPrepareSP_no_err (st : PState) (pos : Int) (u : String) (s0 : SongP)
    (hnp : st.nowPlaying = some u) (hfind : st.queue.findSong u = some s0)
    (hgood : ∀ e ∈ s0.fetchEvents, e.err = none) :
    (songPrepareSP st pos).2 = none := by
  have hg : st.getNowPlaying = some s0 := by
    simp [PState.getNowPlaying, hnp, hfind]
  simp only [songPrepareSP, hg]
  by_cases hprep : s0.prepared = true
  · rw [if_pos hprep]
    rw [spCallback_success st pos _ s0 rfl hg]
  · rw [if_neg hprep]
    by_cases hif : s0.inFlight = true
    · rw [if_pos hif]
    · rw [if_neg hif]
      refine deliverSP_no_err pos s0.fetchEvents _ u ?_ ?_ hgood
      · exact hnp
      · have hrw := uuidList_updateSong
          ({ st with trace := st.trace ++ [TraceEv.fetchStart s0.uuid] } : PState)
          s0.uuid (fun t => { t with inFlight := true, hasSongData := true })
          (fun t => rfl)
        rw [hrw]
        exact mem_uuidList_of_findSong st u s0 hfind

lemma startPlayback_no_err (st : PState) (pos : Int) (u : String) (s0 : SongP)
    (hnp : st.nowPlaying = some u) (hfind : st.queue.findSong u = some s0)
    (hgood : ∀ e ∈ s0.fetchEvents, e.err = none) :
    (startPlayback st pos).2 = none := by
  simp only [startPlayback, hnp, Option.isNone_some, Bool.false_eq_true, if_false]
  exact songPrepareSP_no_err _ pos u s0 rfl hfind hgood

lemma changeSong_found (st : PState) (x : SongP) (rest : List SongP)
    (hq : st.queue.songs = x :: rest)
    (hgood : ∀ e ∈ x.fetchEvents, e.err = none) :
    (changeSong st (some x.uuid)).2 = none
    ∧ (changeSong st (some x.uuid)).1.nowPlaying = some x.uuid := by
  have hfind : st.queue.findSong x.uuid = some x := by
    unfold QueueP.findSong
    rw [hq]
    exact find?_head_self x rest
  simp only [changeSong, Option.some_bind, hfind, Option.map_some',
    Option.isNone_some, Bool.false_eq_true, if_false]
  constructor
  · exact startPlayback_no_err _ 0 x.uuid x rfl hfind hgood
  · obtain ⟨h1, _, _⟩ := startPlayback_stepOK
      ({ st with songEndTimeout := false, nowPlaying := some x.uuid } : PState)
      0 x.uuid rfl
    exact h1

/-- C8. songEnd with the now-playing song last in the queue (its uuid not
shared by an earlier queue entry, and, matching the event-loop model, no
queued song's fetch reporting an error): with repeat off the now-playing
song is unchanged (no further song change happens); with repeat on the
player changes to the first queued song; and in both cases look-ahead
preparation (prepareSongs) is triggered afterwards, witnessed by its trace
entry. -/
theorem songEnd_last_queued (st : PState) (ss : List SongP) (s : SongP)
    (hq : st.queue.songs = ss ++ [s])
    (hss : ∀ t ∈ ss, t.uuid ≠ s.uuid)
    (hnp : st.nowPlaying = some s.uuid)
    (hgood : ∀ t ∈ st.queue.songs, ∀ e ∈ t.fetchEvents, e.err = none) :
    (st.repeatOn = false → (songEnd st).1.nowPlaying = some s.uuid)
    ∧ (st.repeatOn = true →
        (songEnd st).1.nowPlaying = some (((ss ++ [s]).headD s).uuid))
    ∧ TraceEv.prepareSongsCall ∈ (songEnd st).1.trace := by
  have hfind : st.queue.findSong s.uuid = some s := by
    unfold QueueP.findSong
    rw [hq]
    exact find?_append_last s ss hss
  have hg : st.getNowPlaying = some s := by
    simp [PState.getNowPlaying, hnp, hfind]
  have hidx : st.queue.findSongIndex s.uuid = (ss.length : Int) := by
    unfold QueueP.findSongIndex
    rw [hq]
    rw [findIdx?_append_last s (by simp) ss 0 hss]
    simp
  have hnext : listAtInt
      (st.callHooksP "onSongEnd" [Value.vstr s.uuid]).1.queue.songs
      ((ss.length : Int) + 1) = none := by
    show listAtInt st.queue.songs ((ss.length : Int) + 1) = none
    unfold listAtInt
    rw [hq]
    rw [if_neg (by omega : ¬ (((ss.length : Int) + 1) < 0))]
    apply List.getElem?_eq_none
    have ht : (((ss.length : Int)) + 1).toNat = ss.length + 1 := by omega
    rw [ht]
    simp
  simp only [songEnd, hg, hidx]
  rw [hnext]
  by_cases hrep : st.repeatOn = true
  · have hrep' : (st.callHooksP "onSongEnd" [Value.vstr s.uuid]).1.repeatOn = true :=
      hrep
    have hhead : ∃ r, ss ++ [s] = ((ss ++ [s]).headD s) :: r := by
      rcases ss with _ | ⟨a, as⟩
      · exact ⟨[], rfl⟩
      · exact ⟨as ++ [s], rfl⟩
    obtain ⟨r, hr⟩ := hhead
    have huuid0 : (st.callHooksP "onSongEnd" [Value.vstr s.uuid]).1.queue.uuidAtIndex 0 =
        some (((ss ++ [s]).headD s).uuid) := by
      show st.queue.uuidAtIndex 0 = some (((ss ++ [s]).headD s).uuid)
      unfold QueueP.uuidAtIndex listAtInt
      rw [hq, hr]
      simp [List.headD_cons]
    rw [if_pos hrep', huuid0]
    have hqF : (st.callHooksP "onSongEnd" [Value.vstr s.uuid]).1.queue.songs =
        ((ss ++ [s]).headD s) :: r := by
      show st.queue.songs = _
      rw [hq, hr, List.headD_cons]
    have hFgood : ∀ e ∈ ((ss ++ [s]).headD s).fetchEvents, e.err = none := by
      apply hgood
      rw [hq, hr, List.headD_cons]
      exact List.mem_cons_self _ _
    obtain ⟨hcsE, hcsNP⟩ := changeSong_found
      (st.callHooksP "onSongEnd" [Value.vstr s.uuid]).1
      ((ss ++ [s]).headD s) r hqF hFgood
    rcases hcs : changeSong (st.callHooksP "onSongEnd" [Value.vstr s.uuid]).1
        (some (((ss ++ [s]).headD s).uuid)) with ⟨st2, y⟩
    rw [hcs] at hcsE hcsNP
    simp only at hcsE hcsNP
    subst hcsE
    obtain ⟨hp1, _, hp3⟩ := prepareSongs_spec st2
    refine ⟨?_, ?_, ?_⟩
    · intro h0
      rw [h0] at hrep
      cases hrep
    · intro _
      show (prepareSongs st2).1.nowPlaying = some (((ss ++ [s]).headD s).uuid)
      rw [hp1]
      exact hcsNP
    · show TraceEv.prepareSongsCall ∈ (prepareSongs st2).1.trace
      exact hp3
  · have hrep' : ¬ (st.callHooksP "onSongEnd" [Value.vstr s.uuid]).1.repeatOn = true :=
      hrep
    rw [if_neg hrep']
    obtain ⟨hp1, _, hp3⟩ := prepareSongs_spec
      (st.callHooksP "onSongEnd" [Value.vstr s.uuid]).1
    refine ⟨?_, ?_, ?_⟩
    · intro _
      show (prepareSongs (st.callHooksP "onSongEnd" [Value.vstr s.uuid]).1).1.nowPlaying =
        some s.uuid
      rw [hp1]
      exact hnp
    · intro h0
      exact absurd h0 hrep
    · show TraceEv.prepareSongsCall ∈
        (prepareSongs (st.callHooksP "onSongEnd" [Value.vstr s.uuid]).1).1.trace
      exact hp3

/-- First queued song for the C8 witness. -/
def c8a : SongP := { uuid := "a", prepared := true }

/-- Last queued (and now-playing) song for the C8 witness. -/
def c8b : SongP := { uuid := "b", prepared := true }

/-- The player state for the C8 witness: two prepared songs with the last
one now playing. -/
def c8State : PState :=
  { queue := { songs := [c8a, c8b] }, nowPlaying := some "b" }

/-- Witness for C8 at a concrete two-song queue with the last song now
playing. -/
theorem songEnd_last_queued_witness :
    (c8State.repeatOn = false → (songEnd c8State).1.nowPlaying = some c8b.uuid)
    ∧ (c8State.repeatOn = true →
        (songEnd c8State).1.nowPlaying = some ((([c8a] ++ [c8b]).headD c8b).uuid))
    ∧ TraceEv.prepareSongsCall ∈ (songEnd c8State).1.trace :=
  songEnd_last_queued c8State [c8a] c8b rfl (by decide) rfl (by decide)
